import Mathlib

/-!
Verification development for the graphator collection / retention /
location-aggregation pipeline.

The definitions below are a shallow embedding of the TypeScript source:
  - `src/app/services/sensorDiscovery.ts`  (sensor classifier)
  - `src/app/utils/sensorGrouping.ts`      (location aggregator)
  - `src/app/services/database/readingRepository.ts` (retention deletion)
  - `src/app/worker/index.ts`              (reading fetcher / collection pass)

JavaScript strings are modelled as Lean strings (operated on as `List Char`;
all characters involved are in the basic plane, where UTF-16 code-unit
indices and code-point indices agree).  JavaScript numbers that are only
stored and moved (never arithmetically combined) are modelled as `ℚ`;
`Date` values as `Int` epoch milliseconds.
-/

/-- Sensor kind, `Sensor['type']` in `src/app/types/sensor.ts`. -/
inductive SensorType where
  | temperature
  | humidity
  | both
deriving DecidableEq, Repr

/-- Sensor status, `Sensor['status']` in `src/app/types/sensor.ts`. -/
inductive SensorStatus where
  | online
  | offline
  | error
deriving DecidableEq, Repr

/-- Record `Sensor` from `src/app/types/sensor.ts`. -/
structure Sensor where
  id : String
  friendlyName : String
  entityId : String
  type : SensorType
  unit : String
  lastSeen : Int
  status : SensorStatus
deriving DecidableEq, Repr

/-- Record `SensorReading` from `src/app/types/sensor.ts`; the optional
numeric fields are `Option ℚ`. -/
structure SensorReading where
  sensorId : String
  timestamp : Int
  temperature : Option ℚ
  humidity : Option ℚ
deriving DecidableEq, Repr

/-- Attributes of a raw Home Assistant state record
(`HomeAssistantState.attributes` in `src/app/types/sensor.ts`). -/
structure HAAttributes where
  friendly_name : Option String
  unit_of_measurement : Option String
  device_class : Option String
deriving DecidableEq, Repr

/-- Raw external state record (`HomeAssistantState` in
`src/app/types/sensor.ts`); `last_updated` is modelled as epoch millis. -/
structure HomeAssistantState where
  entity_id : String
  attributes : HAAttributes
  last_updated : Int
deriving DecidableEq, Repr

/-! ### String helpers (JavaScript string operations over `List Char`) -/

/-- JavaScript `String.prototype.includes(pat)`: `pat` occurs as a
contiguous sublist. -/
def includesL (pat s : List Char) : Bool :=
  (List.range (s.length + 1)).any fun i => pat.isPrefixOf (s.drop i)

/-- JavaScript `String.prototype.lastIndexOf(pat)`: the greatest index at
which `pat` occurs, or `none` (`-1` in JavaScript). -/
def lastIndexOfL (pat s : List Char) : Option Nat :=
  ((List.range (s.length + 1)).filter fun i => pat.isPrefixOf (s.drop i)).getLast?

/-- Whitespace stripped by JavaScript `String.prototype.trim` (restricted
to the whitespace characters that can occur in this pipeline). -/
def isJsSpace (c : Char) : Bool :=
  c == ' ' || c == '\t' || c == '\n' || c == '\r'

/-- JavaScript `String.prototype.trim`. -/
def trimL (s : List Char) : List Char :=
  ((s.dropWhile isJsSpace).reverse.dropWhile isJsSpace).reverse

/-- Character-wise lower casing (JavaScript `toLowerCase` / the `i` regex
flag; ASCII is all that the matched patterns contain). -/
def toLowerL (s : List Char) : List Char :=
  s.map Char.toLower

/-! ### Sensor classifier (`SensorDiscoveryService.getSensorType`) -/

/-- Embedding of `SensorDiscoveryService.getSensorType` from
`src/app/services/sensorDiscovery.ts`:

```ts
if (deviceClass === 'temperature' || unit?.includes('°')) return 'temperature';
if (deviceClass === 'humidity' || unit === '%') return 'humidity';
return null;
```
-/
def getSensorType (st : HomeAssistantState) : Option SensorType :=
  let deviceClass := st.attributes.device_class
  let unit := st.attributes.unit_of_measurement
  if deviceClass == some "temperature"
      || (unit.map fun u => includesL "°".toList u.toList).getD false then
    some SensorType.temperature
  else if deviceClass == some "humidity" || unit == some "%" then
    some SensorType.humidity
  else
    none

/-! ### Location aggregator helpers (`src/app/utils/sensorGrouping.ts`) -/

/-- The suffix list of `extractLocation`:
`['Temperature', 'temperature', 'Humidity', 'humidity', 'Battery', 'battery', 'power']`. -/
def descriptorSuffixes : List String :=
  ["Temperature", "temperature", "Humidity", "humidity", "Battery", "battery", "power"]

/-- Embedding of `extractLocation` from `src/app/utils/sensorGrouping.ts`: for the first
suffix in the fixed list such that a space followed by that (exact-case)
suffix occurs in the name, truncate before its last occurrence and trim;
otherwise the trimmed whole name. -/
def extractLocation (friendlyName : String) : String :=
  match descriptorSuffixes.findSome? (fun suffix =>
      lastIndexOfL (' ' :: suffix.toList) friendlyName.toList) with
  | some index => String.mk (trimL (friendlyName.toList.take index))
  | none => String.mk (trimL friendlyName.toList)

/-- Regex word character `\w` = `[A-Za-z0-9_]`. -/
def isWordChar (c : Char) : Bool :=
  ('a' ≤ c && c ≤ 'z') || ('A' ≤ c && c ≤ 'Z') || ('0' ≤ c && c ≤ '9') || c == '_'

/-- Word `w` occurs at index `i` of `s` with regex word boundaries on both
sides (`\bw\b` anchored at `i`). -/
def wordAt (w s : List Char) (i : Nat) : Bool :=
  w.isPrefixOf (s.drop i)
    && (i == 0 || !(isWordChar (s.getD (i - 1) ' ')))
    && (s.length ≤ i + w.length || !(isWordChar (s.getD (i + w.length) ' ')))

/-- Pattern `\bw\b` matches somewhere at index `start` or later. -/
def wordOccursFrom (w s : List Char) (start : Nat) : Bool :=
  (List.range (s.length + 1)).any fun i => decide (start ≤ i) && wordAt w s i

/-- The regex `\bof\b.*\b(sweden|china|germany)\b` over a lower-cased
string: a word `of` followed, at or after its end, by one of the country
words. -/
def ofCountryPattern (s : List Char) : Bool :=
  (List.range (s.length + 1)).any fun i =>
    wordAt "of".toList s i
      && (["sweden", "china", "germany"].any fun c =>
            wordOccursFrom c.toList s (i + 2))

/-- Embedding of `isDeviceName` from `src/app/utils/sensorGrouping.ts`: the four
case-insensitive patterns `^IKEA`, `dimmer`, `sensor`,
`\bof\b.*\b(sweden|china|germany)\b`. -/
def isDeviceName (location : String) : Bool :=
  let cs := toLowerL location.toList
  "ikea".toList.isPrefixOf cs
    || includesL "dimmer".toList cs
    || includesL "sensor".toList cs
    || ofCountryPattern cs

/-- Data kind of a sensor inside a group
(`getSensorDataType` return values). -/
inductive DataKind where
  | temperature
  | humidity
  | battery
deriving DecidableEq, Repr

/-- Embedding of `getSensorDataType` from `src/app/utils/sensorGrouping.ts`. -/
def getSensorDataType (friendlyName : String) : Option DataKind :=
  let lower := toLowerL friendlyName.toList
  if includesL "temperature".toList lower then some DataKind.temperature
  else if includesL "humidity".toList lower then some DataKind.humidity
  else if includesL "battery".toList lower || includesL "power".toList lower then
    some DataKind.battery
  else
    none

/-! ### Retention deletion (`readingRepository.deleteOldReadings`) -/

/-- Embedding of `deleteOldReadings` from `src/app/services/database/readingRepository.ts`:
`DELETE FROM sensor_readings WHERE timestamp < $1` over a store modelled as
a list of rows; returns the remaining store and the deleted row count. -/
def deleteOldReadings (cutoffDate : Int) (store : List SensorReading) :
    List SensorReading × Nat :=
  (store.filter fun r => !(decide (r.timestamp < cutoffDate)),
   (store.filter fun r => decide (r.timestamp < cutoffDate)).length)

/-! ### Location aggregator (`groupSensorsByLocation`) -/

/-- Record `SensorGroup` from `src/app/utils/sensorGrouping.ts`. -/
structure SensorGroup where
  location : String
  sensorIds : List String
  temperature : Option ℚ
  humidity : Option ℚ
  battery : Option ℚ
  lastSeen : Int
  status : SensorStatus
deriving DecidableEq, Repr

/-- The freshly created group of `groupSensorsByLocation` before the
per-sensor update block runs (`groups.set(location, group)` with empty
member list, all values `undefined`, `lastSeen`/`status` seeded from the
creating sensor). -/
def emptyGroup (location : String) (s : Sensor) : SensorGroup :=
  { location := location
    sensorIds := []
    temperature := none
    humidity := none
    battery := none
    lastSeen := s.lastSeen
    status := s.status }

/-- The per-sensor update block of `groupSensorsByLocation`: push the
member id, bump `lastSeen`, resolve status with error-over-offline
precedence, and route the sensor's latest reading into the field selected
by `getSensorDataType` (battery values travel through the reading's
humidity field). -/
def applySensor (latestReadings : String → Option SensorReading)
    (s : Sensor) (g : SensorGroup) : SensorGroup :=
  let g := { g with sensorIds := g.sensorIds ++ [s.id] }
  let g := if s.lastSeen > g.lastSeen then { g with lastSeen := s.lastSeen } else g
  let g :=
    if s.status = SensorStatus.error then { g with status := SensorStatus.error }
    else if s.status = SensorStatus.offline ∧ g.status ≠ SensorStatus.error then
      { g with status := SensorStatus.offline }
    else g
  match latestReadings s.id, getSensorDataType s.friendlyName with
  | some r, some DataKind.temperature => { g with temperature := r.temperature }
  | some r, some DataKind.humidity => { g with humidity := r.humidity }
  | some r, some DataKind.battery => { g with battery := r.humidity }
  | _, _ => g

/-- One iteration of the `for (const sensor of sensors)` loop of
`groupSensorsByLocation`, over the insertion-ordered group list that
models the JavaScript `Map`. -/
def insertSensor (latestReadings : String → Option SensorReading)
    (gs : List SensorGroup) (s : Sensor) : List SensorGroup :=
  let location := extractLocation s.friendlyName
  if isDeviceName location then gs
  else if gs.any fun g => g.location == location then
    gs.map fun g => if g.location == location then applySensor latestReadings s g else g
  else
    gs ++ [applySensor latestReadings s (emptyGroup location s)]

/-- The group list built by the loop of `groupSensorsByLocation`
(`Array.from(groups.values())`, in insertion order, before sorting). -/
def buildGroups (latestReadings : String → Option SensorReading)
    (sensors : List Sensor) : List SensorGroup :=
  sensors.foldl (insertSensor latestReadings) []

/-- The comparator of the final sort:
`(a, b) => a.location.localeCompare(b.location)`.  `localeCompare`'s
collation is host-locale-dependent behaviour of the JavaScript runtime,
not part of this repository; it is modelled as the code-point
(lexicographic) order on strings. -/
def groupLe (a b : SensorGroup) : Prop :=
  a.location ≤ b.location

instance : DecidableRel groupLe := fun a b =>
  inferInstanceAs (Decidable (a.location ≤ b.location))

instance : IsTotal SensorGroup groupLe :=
  ⟨fun a b => le_total a.location b.location⟩

instance : IsTrans SensorGroup groupLe :=
  ⟨fun _ _ _ hab hbc => le_trans hab hbc⟩

/-- Embedding of `groupSensorsByLocation` from `src/app/utils/sensorGrouping.ts`. -/
def groupSensorsByLocation (sensors : List Sensor)
    (latestReadings : String → Option SensorReading) : List SensorGroup :=
  (buildGroups latestReadings sensors).insertionSort groupLe

/-! ### Reading fetcher and collection pass (`src/app/worker/index.ts`) -/

/-- Outcome of `client.getSensorState(sensor.entityId)` followed by
`parseFloat(state.state)` for one sensor on one collection tick:
`fetchError` is a network/HTTP rejection thrown by the client;
`ok value lastUpdated` is a delivered state whose `state` string parses to
`value` (`none` standing for a `parseFloat` result of `NaN`, i.e. a
non-numeric string or a literal NaN). -/
inductive FetchOutcome where
  | fetchError
  | ok (value : Option ℚ) (lastUpdated : Int)
deriving DecidableEq, Repr

/-- Embedding of `fetchAndStoreSensorData` from `src/app/worker/index.ts`.  The
function is total: the `try/catch` converts the fetch rejection into
`(none, false)`, the `isNaN` guard into `(none, false)`, and a successful
parse into the constructed reading plus `true`.  The returned reading is
the row passed to `readingRepository.insertReading` (modelled as an
always-succeeding append; persistence failures are outside this claim
set). -/
def fetchAndStoreSensorData (env : String → FetchOutcome) (s : Sensor) :
    Option SensorReading × Bool :=
  match env s.entityId with
  | FetchOutcome.fetchError => (none, false)
  | FetchOutcome.ok none _ => (none, false)
  | FetchOutcome.ok (some value) lastUpdated =>
      let reading : SensorReading :=
        { sensorId := s.id
          timestamp := lastUpdated
          temperature :=
            if s.type = SensorType.temperature ∨ s.type = SensorType.both then
              some value
            else none
          humidity :=
            if s.type = SensorType.humidity ∨ s.type = SensorType.both then
              some value
            else none }
      (some reading, true)

/-- Whether the per-sensor fetch of one tick fails (network/HTTP error, a
value that does not parse, or a parsed NaN). -/
def sensorFails (env : String → FetchOutcome) (s : Sensor) : Bool :=
  match env s.entityId with
  | FetchOutcome.fetchError => true
  | FetchOutcome.ok none _ => true
  | FetchOutcome.ok (some _) _ => false

/-- Embedding of `collectData` from `src/app/worker/index.ts`: the
`Promise.all(currentSensors.map(...))` fan-out.  Returns the readings
persisted by the pass (in roster order) and the per-sensor boolean
results. -/
def collectData (env : String → FetchOutcome) (sensors : List Sensor) :
    List SensorReading × List Bool :=
  let results := sensors.map (fetchAndStoreSensorData env)
  (results.filterMap Prod.fst, results.map Prod.snd)

/-! ### Reference functions for the aggregation proofs -/

/-- The location a sensor is grouped under. -/
def sensorLocation (s : Sensor) : String :=
  extractLocation s.friendlyName

/-- A sensor survives the device-name filter. -/
def keptSensor (s : Sensor) : Bool :=
  !(isDeviceName (sensorLocation s))

/-- The sensor is a member of the group at location `L`. -/
def memberOf (L : String) (s : Sensor) : Bool :=
  keptSensor s && (sensorLocation s == L)

/-- The members of the group at location `L`, in input order. -/
def membersOf (L : String) (sensors : List Sensor) : List Sensor :=
  sensors.filter (memberOf L)

/-- One step of first-appearance location collection. -/
def locStep (acc : List String) (s : Sensor) : List String :=
  if keptSensor s && !(acc.contains (sensorLocation s)) then
    acc ++ [sensorLocation s]
  else acc

/-- The distinct kept locations of the sensor list, in first-appearance
order (the key order of the JavaScript `Map`). -/
def locationsOf (sensors : List Sensor) : List String :=
  sensors.foldl locStep []

/-- The status-merge step of the update block
(error keeps precedence over offline, online never downgrades). -/
def statusStep (sStatus gStatus : SensorStatus) : SensorStatus :=
  if sStatus = SensorStatus.error then SensorStatus.error
  else if sStatus = SensorStatus.offline ∧ gStatus ≠ SensorStatus.error then
    SensorStatus.offline
  else gStatus

/-- The fixed-precedence status of a member list: `error` if any member is
`error`, else `offline` if any member is `offline`, else `online`. -/
def statusOfMembers (ms : List Sensor) : SensorStatus :=
  if ms.any fun s => s.status == SensorStatus.error then SensorStatus.error
  else if ms.any fun s => s.status == SensorStatus.offline then SensorStatus.offline
  else SensorStatus.online

/-- The reading field that feeds a data kind: temperature for the
temperature kind, humidity for the humidity kind, and humidity again for
the battery kind (battery values travel through the humidity field). -/
def fieldOf (k : DataKind) (r : SensorReading) : Option ℚ :=
  match k with
  | DataKind.temperature => r.temperature
  | DataKind.humidity => r.humidity
  | DataKind.battery => r.humidity

/-- The group field a data kind is displayed in. -/
def groupValue (g : SensorGroup) (k : DataKind) : Option ℚ :=
  match k with
  | DataKind.temperature => g.temperature
  | DataKind.humidity => g.humidity
  | DataKind.battery => g.battery

/-- The value-merge step of the update block for data kind `k`. -/
def valueStep (latestReadings : String → Option SensorReading) (k : DataKind)
    (s : Sensor) (cur : Option ℚ) : Option ℚ :=
  match latestReadings s.id, getSensorDataType s.friendlyName with
  | some r, some k2 => if k2 = k then fieldOf k r else cur
  | _, _ => cur

/-- The sensor contributes a value of kind `k`: it has a latest reading
and its name classifies it as kind `k`. -/
def relevantFor (latestReadings : String → Option SensorReading) (k : DataKind)
    (s : Sensor) : Bool :=
  (latestReadings s.id).isSome && (getSensorDataType s.friendlyName == some k)

/-- Last-wins value of kind `k` over a member list: the `k`-field of the
latest reading of the member appearing last in input order among those
that have a latest reading and classify as kind `k`; `cur` when there is
no such member. -/
def lastKindValue (latestReadings : String → Option SensorReading) (k : DataKind)
    (ms : List Sensor) (cur : Option ℚ) : Option ℚ :=
  match ms.reverse.find? (relevantFor latestReadings k) with
  | some t => (latestReadings t.id).bind (fieldOf k)
  | none => cur

/-- Folding the update block over a member list. -/
def foldApply (latestReadings : String → Option SensorReading)
    (g0 : SensorGroup) (ms : List Sensor) : SensorGroup :=
  ms.foldl (fun g s => applySensor latestReadings s g) g0

/-- The group produced for location `L` from its member list (in input
order): the update block folded over the members starting from the fresh
group seeded by the first member; `none` when there are no members. -/
def groupOf (latestReadings : String → Option SensorReading) (L : String)
    (ms : List Sensor) : Option SensorGroup :=
  match ms with
  | [] => none
  | m :: _ => some (foldApply latestReadings (emptyGroup L m) ms)

/-! ### Claim support: sensor classifier -/

/-- The unit-string temperature signal of the classifier:
`unit?.includes('°')`. -/
def unitHasDegree (st : HomeAssistantState) : Bool :=
  (st.attributes.unit_of_measurement.map fun u => includesL "°".toList u.toList).getD false

/-- A raw record whose device-class says humidity while its unit string
contains the degree sign. -/
def humidityDegreeState : HomeAssistantState :=
  { entity_id := "sensor.odd_device"
    attributes :=
      { friendly_name := some "Odd Device"
        unit_of_measurement := some "°C"
        device_class := some "humidity" }
    last_updated := 0 }

/-! ### Concrete fixtures -/

/-- Temperature sensor of the Büro location. -/
def buroTempSensor : Sensor :=
  { id := "bt"
    friendlyName := "Büro Temperature"
    entityId := "sensor.bt"
    type := SensorType.temperature
    unit := "°C"
    lastSeen := 10
    status := SensorStatus.online }

/-- Humidity sensor of the Büro location. -/
def buroHumSensor : Sensor :=
  { id := "bh"
    friendlyName := "Büro Humidity"
    entityId := "sensor.bh"
    type := SensorType.humidity
    unit := "%"
    lastSeen := 20
    status := SensorStatus.offline }

/-- A second temperature sensor of the Büro location, later in the input. -/
def buroTemp2Sensor : Sensor :=
  { id := "bt2"
    friendlyName := "Büro Temperature 2"
    entityId := "sensor.bt2"
    type := SensorType.temperature
    unit := "°C"
    lastSeen := 30
    status := SensorStatus.online }

/-- The device-named battery sensor of the spec's example. -/
def ikeaSensor : Sensor :=
  { id := "ik"
    friendlyName := "IKEA of Sweden RODRET Dimmer Battery"
    entityId := "sensor.ik"
    type := SensorType.humidity
    unit := "%"
    lastSeen := 5
    status := SensorStatus.error }

/-- Latest readings for the fixture sensors. -/
def demoReadings : String → Option SensorReading := fun i =>
  if i = "bt" then
    some { sensorId := "bt", timestamp := 1, temperature := some 21, humidity := none }
  else if i = "bh" then
    some { sensorId := "bh", timestamp := 2, temperature := none, humidity := some 55 }
  else if i = "bt2" then
    some { sensorId := "bt2", timestamp := 3, temperature := some 25, humidity := none }
  else none

/-- The group the Büro fixtures produce. -/
def buroGroup : SensorGroup :=
  { location := "Büro"
    sensorIds := ["bt", "bh"]
    temperature := some 21
    humidity := some 55
    battery := none
    lastSeen := 20
    status := SensorStatus.offline }

/-- The group produced when both Büro temperature sensors are present. -/
def buroTwoTempGroup : SensorGroup :=
  { location := "Büro"
    sensorIds := ["bt", "bt2"]
    temperature := some 25
    humidity := none
    battery := none
    lastSeen := 30
    status := SensorStatus.online }

/-- The group produced from the Büro temperature sensor next to the
IKEA device sensor. -/
def buroOnlyTempGroup : SensorGroup :=
  { location := "Büro"
    sensorIds := ["bt"]
    temperature := some 21
    humidity := none
    battery := none
    lastSeen := 10
    status := SensorStatus.online }

/-- Fetch environment for the isolation witness: the Büro humidity fetch
rejects, every other fetch succeeds. -/
def demoEnv : String → FetchOutcome := fun e =>
  if e = "sensor.bt" then FetchOutcome.ok (some 21) 1
  else if e = "sensor.bh" then FetchOutcome.fetchError
  else FetchOutcome.ok (some 5) 2

/-- A plain humidity record: device-class humidity, unit exactly `%`. -/
def humidityPercentState : HomeAssistantState :=
  { entity_id := "sensor.hum"
    attributes :=
      { friendly_name := some "Hum"
        unit_of_measurement := some "%"
        device_class := some "humidity" }
    last_updated := 0 }

/-- The reading the fetcher constructs for the Büro temperature sensor
under the witness environment. -/
def demoFetchedReading : SensorReading :=
  { sensorId := "bt", timestamp := 1, temperature := some 21, humidity := none }

/-! ### Field-wise description of the update block -/

/-- The sequential update block acts on each group field independently. -/
theorem applySensor_eq_fields (R : String → Option SensorReading) (s : Sensor) (g : SensorGroup) :
    applySensor R s g =
      { location := g.location
        sensorIds := g.sensorIds ++ [s.id]
        temperature := valueStep R DataKind.temperature s g.temperature
        humidity := valueStep R DataKind.humidity s g.humidity
        battery := valueStep R DataKind.battery s g.battery
        lastSeen := if s.lastSeen > g.lastSeen then s.lastSeen else g.lastSeen
        status := statusStep s.status g.status } := by
  unfold applySensor statusStep valueStep fieldOf
  rcases hR : R s.id with _ | r <;>
    rcases hD : getSensorDataType s.friendlyName with _ | k <;>
    (try cases k) <;>
    split_ifs <;>
    simp_all <;>
    (try split_ifs) <;>
    simp_all <;>
    omega

/-- The update block never changes the group's location. -/
theorem applySensor_location (R : String → Option SensorReading) (s : Sensor) (g : SensorGroup) :
    (applySensor R s g).location = g.location := by
  rw [applySensor_eq_fields]

/-- The update block appends exactly the member's id. -/
theorem applySensor_sensorIds (R : String → Option SensorReading) (s : Sensor) (g : SensorGroup) :
    (applySensor R s g).sensorIds = g.sensorIds ++ [s.id] := by
  rw [applySensor_eq_fields]

/-- The status after the update block. -/
theorem applySensor_status (R : String → Option SensorReading) (s : Sensor) (g : SensorGroup) :
    (applySensor R s g).status = statusStep s.status g.status := by
  rw [applySensor_eq_fields]

/-- The displayed value of each kind after the update block. -/
theorem applySensor_groupValue (R : String → Option SensorReading) (s : Sensor)
    (g : SensorGroup) (k : DataKind) :
    groupValue (applySensor R s g) k = valueStep R k s (groupValue g k) := by
  rw [applySensor_eq_fields]
  cases k <;> rfl

/-! ### Folding the update block over a member list -/

theorem foldApply_cons (R : String → Option SensorReading) (g0 : SensorGroup)
    (s : Sensor) (ms : List Sensor) :
    foldApply R g0 (s :: ms) = foldApply R (applySensor R s g0) ms := rfl

theorem foldApply_append_one (R : String → Option SensorReading) (g0 : SensorGroup)
    (ms : List Sensor) (s : Sensor) :
    foldApply R g0 (ms ++ [s]) = applySensor R s (foldApply R g0 ms) := by
  simp [foldApply, List.foldl_append]

theorem foldApply_location (R : String → Option SensorReading) (g0 : SensorGroup)
    (ms : List Sensor) : (foldApply R g0 ms).location = g0.location := by
  induction ms generalizing g0 with
  | nil => rfl
  | cons s ms ih => rw [foldApply_cons, ih, applySensor_location]

theorem foldApply_sensorIds (R : String → Option SensorReading) (g0 : SensorGroup)
    (ms : List Sensor) :
    (foldApply R g0 ms).sensorIds = g0.sensorIds ++ ms.map Sensor.id := by
  induction ms generalizing g0 with
  | nil => simp [foldApply]
  | cons s ms ih =>
    rw [foldApply_cons, ih, applySensor_sensorIds]
    simp

theorem foldApply_status (R : String → Option SensorReading) (g0 : SensorGroup)
    (ms : List Sensor) :
    (foldApply R g0 ms).status = ms.foldl (fun a s => statusStep s.status a) g0.status := by
  induction ms generalizing g0 with
  | nil => rfl
  | cons s ms ih => rw [foldApply_cons, ih, applySensor_status, List.foldl_cons]

theorem foldApply_groupValue (R : String → Option SensorReading) (g0 : SensorGroup)
    (ms : List Sensor) (k : DataKind) :
    groupValue (foldApply R g0 ms) k =
      ms.foldl (fun a s => valueStep R k s a) (groupValue g0 k) := by
  induction ms generalizing g0 with
  | nil => rfl
  | cons s ms ih => rw [foldApply_cons, ih, applySensor_groupValue, List.foldl_cons]

/-- Resolving the status fold: error wins over offline, offline over the
initial status, which survives only when no member is error or offline. -/
theorem statusFold_eq (ms : List Sensor) (st : SensorStatus) :
    ms.foldl (fun a s => statusStep s.status a) st =
      if ms.any fun s => s.status == SensorStatus.error then SensorStatus.error
      else if ms.any fun s => s.status == SensorStatus.offline then
        (if st = SensorStatus.error then SensorStatus.error else SensorStatus.offline)
      else st := by
  induction ms generalizing st with
  | nil => simp
  | cons s ms ih =>
    rw [List.foldl_cons, ih]
    cases hs : s.status <;> cases hst : st <;>
      simp [statusStep, hs, hst]

/-- The value-merge step overwrites the accumulator exactly for a
contributing member. -/
theorem valueStep_eq (R : String → Option SensorReading) (k : DataKind) (s : Sensor)
    (cur : Option ℚ) :
    valueStep R k s cur =
      if relevantFor R k s then (R s.id).bind (fieldOf k) else cur := by
  unfold valueStep relevantFor
  rcases hR : R s.id with _ | r <;>
    rcases hD : getSensorDataType s.friendlyName with _ | k2 <;>
    simp [hR, hD]

/-- Resolving the value fold: the last contributing member wins. -/
theorem valueFold_eq (R : String → Option SensorReading) (k : DataKind)
    (ms : List Sensor) (cur : Option ℚ) :
    ms.foldl (fun a s => valueStep R k s a) cur = lastKindValue R k ms cur := by
  induction ms generalizing cur with
  | nil => rfl
  | cons s ms ih =>
    rw [List.foldl_cons, ih]
    unfold lastKindValue
    rw [List.reverse_cons, List.find?_append]
    cases hf : ms.reverse.find? (relevantFor R k) with
    | some t => simp [hf]
    | none =>
      simp [hf, List.find?]
      rw [valueStep_eq]
      by_cases h : relevantFor R k s = true <;> simp [h]

/-! ### The location key list -/

/-- Membership after one location-collection step. -/
theorem mem_locStep (acc : List String) (s : Sensor) (L : String) :
    L ∈ locStep acc s ↔ L ∈ acc ∨ memberOf L s = true := by
  unfold locStep memberOf
  split_ifs with h
  · simp only [Bool.and_eq_true, Bool.not_eq_true', List.contains_eq_any_beq] at h
    simp only [List.mem_append, List.mem_singleton, h.1, Bool.true_and, beq_iff_eq]
    exact or_congr Iff.rfl ⟨fun hh => hh.symm, fun hh => hh.symm⟩
  · simp only [Bool.and_eq_true, Bool.not_eq_true'] at h
    constructor
    · exact Or.inl
    · rintro (hL | hL)
      · exact hL
      · simp only [Bool.and_eq_true, beq_iff_eq] at hL
        rcases hL with ⟨hk, hloc⟩
        by_cases hc : acc.contains (sensorLocation s) = true
        · rw [List.elem_iff] at hc
          rw [← hloc]
          exact hc
        · exact absurd ⟨hk, by simpa using hc⟩ h

/-- Membership in the location fold with an arbitrary accumulator. -/
theorem mem_locFold (sensors : List Sensor) (acc : List String) (L : String) :
    L ∈ sensors.foldl locStep acc ↔ L ∈ acc ∨ ∃ s ∈ sensors, memberOf L s = true := by
  induction sensors generalizing acc with
  | nil => simp
  | cons s ss ih =>
    rw [List.foldl_cons, ih, mem_locStep]
    simp only [List.mem_cons]
    constructor
    · rintro ((h | h) | ⟨t, ht, hm⟩)
      · exact Or.inl h
      · exact Or.inr ⟨s, Or.inl rfl, h⟩
      · exact Or.inr ⟨t, Or.inr ht, hm⟩
    · rintro (h | ⟨t, (rfl | ht), hm⟩)
      · exact Or.inl (Or.inl h)
      · exact Or.inl (Or.inr hm)
      · exact Or.inr ⟨t, ht, hm⟩

/-- A location is collected exactly when some sensor is a member of it. -/
theorem mem_locationsOf (sensors : List Sensor) (L : String) :
    L ∈ locationsOf sensors ↔ ∃ s ∈ sensors, memberOf L s = true := by
  simpa using mem_locFold sensors [] L

/-! ### Properties of the per-location group fold -/

/-- The produced group carries its location key. -/
theorem groupOf_location (R : String → Option SensorReading) (L : String)
    (ms : List Sensor) (g : SensorGroup) (h : groupOf R L ms = some g) :
    g.location = L := by
  cases ms with
  | nil => cases h
  | cons m rest =>
    simp only [groupOf, Option.some.injEq] at h
    rw [← h, foldApply_location]
    rfl

/-- A location yields no group exactly when it has no members. -/
theorem groupOf_eq_none_iff (R : String → Option SensorReading) (L : String)
    (ms : List Sensor) : groupOf R L ms = none ↔ ms = [] := by
  cases ms <;> simp [groupOf]

/-- Adding one member at the end applies one more update step. -/
theorem groupOf_append_one (R : String → Option SensorReading) (L : String)
    (ms : List Sensor) (x : Sensor) (h : ms ≠ []) :
    groupOf R L (ms ++ [x]) = (groupOf R L ms).map (applySensor R x) := by
  cases ms with
  | nil => exact absurd rfl h
  | cons m rest =>
    show groupOf R L (m :: (rest ++ [x])) = _
    simp only [groupOf, Option.map_some']
    rw [show m :: (rest ++ [x]) = (m :: rest) ++ [x] from rfl, foldApply_append_one]

/-- Member lists grow at the end by at most the appended sensor. -/
theorem membersOf_append_one (L : String) (xs : List Sensor) (x : Sensor) :
    membersOf L (xs ++ [x]) =
      membersOf L xs ++ (if memberOf L x = true then [x] else []) := by
  unfold membersOf
  rw [List.filter_append]
  congr 1
  by_cases h : memberOf L x = true <;> simp [h]

/-- A collected location has at least one member. -/
theorem membersOf_ne_nil (sensors : List Sensor) (L : String)
    (h : L ∈ locationsOf sensors) : membersOf L sensors ≠ [] := by
  rw [mem_locationsOf] at h
  rcases h with ⟨s, hs, hm⟩
  intro hnil
  have : s ∈ membersOf L sensors := List.mem_filter.mpr ⟨hs, hm⟩
  rw [hnil] at this
  cases this

theorem insertSensor_eq (R : String → Option SensorReading) (gs : List SensorGroup) (x : Sensor) :
    insertSensor R gs x =
      if isDeviceName (sensorLocation x) = true then gs
      else if gs.any fun g => g.location == sensorLocation x then
        gs.map fun g => if g.location == sensorLocation x then applySensor R x g else g
      else gs ++ [applySensor R x (emptyGroup (sensorLocation x) x)] := rfl

theorem buildGroups_eq (R : String → Option SensorReading) (sensors : List Sensor) :
    buildGroups R sensors =
      (locationsOf sensors).filterMap fun L => groupOf R L (membersOf L sensors) := by
  induction sensors using List.reverseRecOn with
  | nil => rfl
  | append_singleton xs x ih =>
    have hb : buildGroups R (xs ++ [x]) = insertSensor R (buildGroups R xs) x := by
      simp [buildGroups, List.foldl_append]
    have hl : locationsOf (xs ++ [x]) = locStep (locationsOf xs) x := by
      simp [locationsOf, List.foldl_append]
    rw [hb, hl, ih, insertSensor_eq]
    by_cases hkept : keptSensor x = true
    · have hdev : isDeviceName (sensorLocation x) = false := by
        unfold keptSensor at hkept
        simpa using hkept
      by_cases hc : sensorLocation x ∈ locationsOf xs
      · -- existing location: the map branch updates exactly the matching group
        have hcontains : (locationsOf xs).contains (sensorLocation x) = true :=
          List.elem_iff.mpr hc
        have hstep : locStep (locationsOf xs) x = locationsOf xs := by
          unfold locStep
          simp [hcontains, hc]
        have hne : membersOf (sensorLocation x) xs ≠ [] := membersOf_ne_nil xs _ hc
        obtain ⟨g0, hg0⟩ : ∃ g0,
            groupOf R (sensorLocation x) (membersOf (sensorLocation x) xs) = some g0 := by
          cases hgo : groupOf R (sensorLocation x) (membersOf (sensorLocation x) xs) with
          | none => exact absurd ((groupOf_eq_none_iff R _ _).mp hgo) hne
          | some g0 => exact ⟨g0, rfl⟩
        have hany : (((locationsOf xs).filterMap fun L =>
            groupOf R L (membersOf L xs)).any fun g => g.location == sensorLocation x) = true := by
          apply List.any_eq_true.mpr
          refine ⟨g0, List.mem_filterMap.mpr ⟨sensorLocation x, hc, hg0⟩, ?_⟩
          simp [groupOf_location R _ _ _ hg0]
        rw [hstep, hdev, hany]
        simp only [Bool.false_eq_true, if_false, if_true]
        rw [List.map_filterMap]
        apply List.filterMap_congr
        intro L hL
        by_cases hLx : L = sensorLocation x
        · have hne' : membersOf L xs ≠ [] := by rw [hLx]; exact hne
          have hg0' : groupOf R L (membersOf L xs) = some g0 := by rw [hLx]; exact hg0
          have hmx : memberOf L x = true := by
            unfold memberOf
            rw [hLx]
            simp [hkept]
          rw [hg0', membersOf_append_one, hmx, if_pos rfl,
            groupOf_append_one R L _ x hne', hg0']
          have hloc0 : g0.location = L := groupOf_location R _ _ _ hg0'
          simp only [Option.map_some', Option.some.injEq]
          rw [if_pos]
          rw [hloc0, hLx]
          exact beq_self_eq_true (sensorLocation x)
        · have hmx : memberOf L x = false := by
            unfold memberOf
            have hne2 : (sensorLocation x == L) = false :=
              beq_eq_false_iff_ne.mpr fun hh => hLx hh.symm
            simp [hne2]
          rw [membersOf_append_one, hmx]
          simp only [Bool.false_eq_true, if_false, List.append_nil]
          cases hgo : groupOf R L (membersOf L xs) with
          | none => rfl
          | some g1 =>
            have hloc1 : g1.location = L := groupOf_location R _ _ _ hgo
            simp only [Option.map_some', Option.some.injEq]
            rw [if_neg]
            intro hh
            rw [beq_iff_eq] at hh
            exact hLx (hloc1.symm.trans hh)
      · -- fresh location: a new group is appended
        have hcontains : (locationsOf xs).contains (sensorLocation x) = false := by
          cases hcc : (locationsOf xs).contains (sensorLocation x) with
          | false => rfl
          | true => exact absurd (List.elem_iff.mp hcc) hc
        have hstep : locStep (locationsOf xs) x =
            locationsOf xs ++ [sensorLocation x] := by
          unfold locStep
          simp [hkept, hcontains, hc]
        have hany : (((locationsOf xs).filterMap fun L =>
            groupOf R L (membersOf L xs)).any fun g => g.location == sensorLocation x) = false := by
          cases haa : (((locationsOf xs).filterMap fun L =>
              groupOf R L (membersOf L xs)).any fun g => g.location == sensorLocation x) with
          | false => rfl
          | true =>
            exfalso
            rcases List.any_eq_true.mp haa with ⟨g1, hg1, hbeq⟩
            rcases List.mem_filterMap.mp hg1 with ⟨L, hLmem, hgo⟩
            have hloc1 : g1.location = L := groupOf_location R _ _ _ hgo
            rw [beq_iff_eq] at hbeq
            rw [hloc1] at hbeq
            exact hc (hbeq ▸ hLmem)
        rw [hstep, hdev, hany]
        simp only [Bool.false_eq_true, if_false]
        rw [List.filterMap_append]
        have hempty : membersOf (sensorLocation x) xs = [] := by
          cases hms : membersOf (sensorLocation x) xs with
          | nil => rfl
          | cons a l =>
            exfalso
            have ha : a ∈ membersOf (sensorLocation x) xs := by
              rw [hms]
              exact List.mem_cons_self a l
            rcases List.mem_filter.mp ha with ⟨hax, ham⟩
            exact hc ((mem_locationsOf xs (sensorLocation x)).mpr ⟨a, hax, ham⟩)
        congr 1
        · apply List.filterMap_congr
          intro L hL
          have hLx : L ≠ sensorLocation x := fun hh => hc (hh ▸ hL)
          have hmx : memberOf L x = false := by
            unfold memberOf
            have hne2 : (sensorLocation x == L) = false :=
              beq_eq_false_iff_ne.mpr fun hh => hLx hh.symm
            simp [hne2]
          rw [membersOf_append_one, hmx]
          simp
        · have hmx : memberOf (sensorLocation x) x = true := by
            unfold memberOf
            simp [hkept]
          simp only [List.filterMap_cons, List.filterMap_nil]
          rw [membersOf_append_one, hempty, hmx]
          simp [groupOf, foldApply]
    · -- device name: the sensor is skipped entirely
      have hdev : isDeviceName (sensorLocation x) = true := by
        unfold keptSensor at hkept
        simpa using hkept
      have hkf : keptSensor x = false := by
        unfold keptSensor
        simp [hdev]
      have hstep : locStep (locationsOf xs) x = locationsOf xs := by
        unfold locStep
        simp [hkf]
      have hmx : ∀ L, memberOf L x = false := fun L => by
        unfold memberOf
        simp [hkf]
      rw [hstep, hdev]
      simp only [if_true]
      apply List.filterMap_congr
      intro L hL
      rw [membersOf_append_one, hmx]
      simp

/-- Sorting does not change the set of produced groups. -/
theorem mem_groupSensorsByLocation (sensors : List Sensor)
    (R : String → Option SensorReading) (g : SensorGroup) :
    g ∈ groupSensorsByLocation sensors R ↔ g ∈ buildGroups R sensors := by
  unfold groupSensorsByLocation
  exact List.mem_insertionSort groupLe

/-- Every produced group is the update-block fold over its own member
list, seeded from the first member. -/
theorem group_characterization (sensors : List Sensor)
    (R : String → Option SensorReading) (g : SensorGroup)
    (hg : g ∈ groupSensorsByLocation sensors R) :
    ∃ m ms, membersOf g.location sensors = m :: ms ∧
      g = foldApply R (emptyGroup g.location m) (m :: ms) := by
  rw [mem_groupSensorsByLocation, buildGroups_eq] at hg
  rcases List.mem_filterMap.mp hg with ⟨L, hL, hgo⟩
  have hloc : g.location = L := groupOf_location R _ _ _ hgo
  subst hloc
  cases hms : membersOf g.location sensors with
  | nil =>
    rw [hms] at hgo
    cases hgo
  | cons m ms =>
    rw [hms] at hgo
    simp only [groupOf, Option.some.injEq] at hgo
    exact ⟨m, ms, rfl, hgo.symm⟩

/-- Status fold over a nonempty member list seeded by the first member's
status resolves to the fixed-precedence member status. -/
theorem statusFold_members (m : Sensor) (ms : List Sensor) :
    ((m :: ms).foldl (fun a s => statusStep s.status a) m.status) =
      statusOfMembers (m :: ms) := by
  rw [statusFold_eq]
  unfold statusOfMembers
  by_cases he : ((m :: ms).any fun s => s.status == SensorStatus.error) = true
  · simp [he]
  · have hm_ne : m.status ≠ SensorStatus.error := by
      intro hh
      exact he (List.any_eq_true.mpr ⟨m, List.mem_cons_self m ms, by simp [hh]⟩)
    by_cases ho : ((m :: ms).any fun s => s.status == SensorStatus.offline) = true
    · simp [he, ho, hm_ne]
    · have hm_no : m.status ≠ SensorStatus.offline := by
        intro hh
        exact ho (List.any_eq_true.mpr ⟨m, List.mem_cons_self m ms, by simp [hh]⟩)
      have hon : m.status = SensorStatus.online := by
        cases hs : m.status <;> simp_all
      simp [he, ho, hon]

/-- The member list, status and displayed values of every produced group,
read off from its own member list. -/
theorem group_fields (sensors : List Sensor) (R : String → Option SensorReading)
    (g : SensorGroup) (hg : g ∈ groupSensorsByLocation sensors R) :
    g.sensorIds = (membersOf g.location sensors).map Sensor.id
    ∧ g.status = statusOfMembers (membersOf g.location sensors)
    ∧ ∀ k, groupValue g k = lastKindValue R k (membersOf g.location sensors) none := by
  rcases group_characterization sensors R g hg with ⟨m, ms, hms, hfold⟩
  rw [hms]
  refine ⟨?_, ?_, ?_⟩
  · rw [hfold, foldApply_sensorIds]
    rfl
  · rw [hfold, foldApply_status]
    exact statusFold_members m ms
  · intro k
    rw [hfold, foldApply_groupValue, valueFold_eq]
    have : groupValue (emptyGroup g.location m) k = none := by cases k <;> rfl
    rw [this]

theorem fetch_fst_none_iff (env : String → FetchOutcome) (s : Sensor) :
    (fetchAndStoreSensorData env s).1 = none ↔ sensorFails env s = true := by
  unfold fetchAndStoreSensorData sensorFails
  cases henv : env s.entityId with
  | fetchError => simp
  | ok v u => cases v <;> simp

theorem collectData_fst_eq (env : String → FetchOutcome) (sensors : List Sensor) :
    (collectData env sensors).1 =
      sensors.filterMap fun s => (fetchAndStoreSensorData env s).1 := by
  unfold collectData
  simp only [List.filterMap_map]
  rfl

theorem persisted_length (env : String → FetchOutcome) (sensors : List Sensor) :
    (sensors.filterMap fun s => (fetchAndStoreSensorData env s).1).length
      + (sensors.filter (sensorFails env)).length = sensors.length := by
  induction sensors with
  | nil => rfl
  | cons s t ih =>
    rw [List.filterMap_cons, List.filter_cons]
    by_cases hf : sensorFails env s = true
    · rw [(fetch_fst_none_iff env s).mpr hf, hf]
      simp only [if_true, List.length_cons]
      omega
    · have hf' : sensorFails env s = false := by simpa using hf
      obtain ⟨r, hr⟩ : ∃ r, (fetchAndStoreSensorData env s).1 = some r := by
        cases ho : (fetchAndStoreSensorData env s).1 with
        | none => exact absurd ((fetch_fst_none_iff env s).mp ho) hf
        | some r => exact ⟨r, rfl⟩
      rw [hr, hf']
      simp only [Bool.false_eq_true, if_false, List.length_cons]
      omega

/-- C1: in a collection pass over N sensors where exactly one sensor's
fetch fails (network/HTTP error, unparseable value, or parsed NaN), the
failing sensor produces no reading and reports boolean failure, the
per-sensor result is always a plain pair (no exception escapes the
per-sensor fetch boundary), and the N−1 successful readings are all
persisted. -/
theorem collection_failure_isolation (env : String → FetchOutcome) (sensors : List Sensor)
    (h : (sensors.filter (sensorFails env)).length = 1) :
    (collectData env sensors).1.length + 1 = sensors.length
    ∧ (∀ s ∈ sensors, sensorFails env s = true →
        fetchAndStoreSensorData env s = (none, false))
    ∧ (∀ s ∈ sensors, sensorFails env s = false →
        ∃ r, fetchAndStoreSensorData env s = (some r, true)
          ∧ r ∈ (collectData env sensors).1) := by
  refine ⟨?_, ?_, ?_⟩
  · rw [collectData_fst_eq]
    have := persisted_length env sensors
    omega
  · intro s hs hf
    unfold fetchAndStoreSensorData
    unfold sensorFails at hf
    cases henv : env s.entityId with
    | fetchError => rfl
    | ok v u =>
      cases v with
      | none => rfl
      | some value =>
        rw [henv] at hf
        cases hf
  · intro s hs hf
    unfold sensorFails at hf
    cases henv : env s.entityId with
    | fetchError => rw [henv] at hf; cases hf
    | ok v u =>
      cases v with
      | none => rw [henv] at hf; cases hf
      | some value =>
        have hfs : fetchAndStoreSensorData env s =
            (some { sensorId := s.id
                    timestamp := u
                    temperature :=
                      if s.type = SensorType.temperature ∨ s.type = SensorType.both then
                        some value
                      else none
                    humidity :=
                      if s.type = SensorType.humidity ∨ s.type = SensorType.both then
                        some value
                      else none }, true) := by
          unfold fetchAndStoreSensorData
          rw [henv]
        refine ⟨_, hfs, ?_⟩
        rw [collectData_fst_eq]
        exact List.mem_filterMap.mpr ⟨s, hs, by rw [hfs]⟩

/-- C7: every reading the fetcher constructs (and hence every reading a
collection pass persists) has at least one of its temperature/humidity
fields present. -/
theorem reading_always_has_value (env : String → FetchOutcome) :
    (∀ s r, (fetchAndStoreSensorData env s).1 = some r →
       r.temperature.isSome = true ∨ r.humidity.isSome = true)
    ∧ (∀ sensors r, r ∈ (collectData env sensors).1 →
       r.temperature.isSome = true ∨ r.humidity.isSome = true) := by
  have h1 : ∀ s r, (fetchAndStoreSensorData env s).1 = some r →
      r.temperature.isSome = true ∨ r.humidity.isSome = true := by
    intro s r hr
    unfold fetchAndStoreSensorData at hr
    cases henv : env s.entityId with
    | fetchError => rw [henv] at hr; cases hr
    | ok v u =>
      cases v with
      | none => rw [henv] at hr; cases hr
      | some value =>
        rw [henv] at hr
        simp only [Option.some.injEq] at hr
        rw [← hr]
        cases ht : s.type <;> simp
  refine ⟨h1, fun sensors r hr => ?_⟩
  rw [collectData_fst_eq] at hr
  rcases List.mem_filterMap.mp hr with ⟨s, _, hs⟩
  exact h1 s r hs

/-- C4: the retention delete removes exactly the readings whose timestamp
is strictly before the cutoff (all of them and no others), the deleted
count plus the remaining rows account for the whole store, and a second
run with the same cutoff deletes 0 and leaves the store unchanged. -/
theorem deleteOldReadings_exact_idempotent (cutoff : Int) (store : List SensorReading) :
    (∀ r, r ∈ (deleteOldReadings cutoff store).1 ↔ r ∈ store ∧ ¬ r.timestamp < cutoff)
    ∧ (deleteOldReadings cutoff store).2 + (deleteOldReadings cutoff store).1.length
        = store.length
    ∧ deleteOldReadings cutoff (deleteOldReadings cutoff store).1 =
        ((deleteOldReadings cutoff store).1, 0) := by
  refine ⟨?_, ?_, ?_⟩
  · intro r
    simp [deleteOldReadings, List.mem_filter]
  · exact (List.length_eq_length_filter_add
      (fun r : SensorReading => decide (r.timestamp < cutoff))).symm
  · unfold deleteOldReadings
    simp only [Prod.mk.injEq]
    constructor
    · rw [List.filter_filter]
      exact List.filter_congr fun a _ => Bool.and_self _
    · rw [List.filter_filter]
      have : (List.filter
          (fun a => decide (a.timestamp < cutoff) && !(decide (a.timestamp < cutoff)))
          store) = [] := by
        apply List.eq_nil_iff_forall_not_mem.mpr
        intro a ha
        have := (List.mem_filter.mp ha).2
        simp at this
      rw [this]
      rfl

/-- C3 counterexample: a record with device-class `humidity` and unit
`°C` is classified as a temperature sensor, so device-class metadata does
not take precedence over the unit string and the record is not
classified as humidity. -/
theorem getSensorType_deviceClass_not_first :
    humidityDegreeState.attributes.device_class = some "humidity"
    ∧ getSensorType humidityDegreeState = some SensorType.temperature
    ∧ getSensorType humidityDegreeState ≠ some SensorType.humidity := by
  refine ⟨rfl, by decide, by decide⟩

/-- C3 amended: the classifier checks the temperature signals
(device-class `temperature`, or a unit containing `°`) before the
humidity signals (device-class `humidity`, or unit exactly `%`); a
device-class `humidity` record is classified as humidity provided its
unit does not contain `°`, and when device-class is neither
`temperature` nor `humidity` the unit-string fallback alone decides. -/
theorem getSensorType_precedence (st : HomeAssistantState) :
    (st.attributes.device_class = some "temperature" →
       getSensorType st = some SensorType.temperature)
    ∧ (unitHasDegree st = true → getSensorType st = some SensorType.temperature)
    ∧ (st.attributes.device_class = some "humidity" → unitHasDegree st = false →
       getSensorType st = some SensorType.humidity)
    ∧ (st.attributes.device_class ≠ some "temperature" →
       st.attributes.device_class ≠ some "humidity" →
       getSensorType st =
         (if unitHasDegree st = true then some SensorType.temperature
          else if st.attributes.unit_of_measurement = some "%" then
            some SensorType.humidity
          else none)) := by
  unfold getSensorType unitHasDegree
  refine ⟨fun h1 => ?_, fun h2 => ?_, fun h3 h4 => ?_, fun h5 h6 => ?_⟩
  · simp [h1]
  · rw [if_pos]
    rw [h2]
    simp
  · rw [if_neg, if_pos]
    · simp [h3]
    · rw [h4]
      simp [h3]
  · by_cases hdeg : (st.attributes.unit_of_measurement.map fun u =>
        includesL "°".toList u.toList).getD false = true
    · rw [if_pos, if_pos hdeg]
      rw [hdeg]
      simp
    · rw [if_neg, if_neg hdeg]
      · by_cases hpc : st.attributes.unit_of_measurement = some "%"
        · rw [if_pos, if_pos hpc]
          simp [hpc]
        · rw [if_neg, if_neg hpc]
          simp [hpc]
          intro hh
          exact absurd hh h6
      · simp only [Bool.or_eq_true, beq_iff_eq, not_or, Bool.not_eq_true]
        exact ⟨h5, by simpa using hdeg⟩

/-! ### Claim support: aggregation -/

theorem any_perm_eq {α : Type} {l1 l2 : List α} (h : l1.Perm l2) (p : α → Bool) :
    l1.any p = l2.any p := by
  cases ha : l2.any p with
  | true =>
    rcases List.any_eq_true.mp ha with ⟨x, hx, hpx⟩
    exact List.any_eq_true.mpr ⟨x, h.mem_iff.mpr hx, hpx⟩
  | false =>
    cases hb : l1.any p with
    | false => rfl
    | true =>
      rcases List.any_eq_true.mp hb with ⟨x, hx, hpx⟩
      have hcontra := List.any_eq_true.mpr ⟨x, h.mem_iff.mp hx, hpx⟩
      rw [ha] at hcontra
      cases hcontra

/-- C2: each produced group's status is `error` if any member sensor is
`error`, else `offline` if any member is `offline`, else `online`; and
the status of the group at a given location is the same for every
iteration order of the input sensor list. -/
theorem group_status_precedence (sensors : List Sensor)
    (R : String → Option SensorReading) (g : SensorGroup)
    (hg : g ∈ groupSensorsByLocation sensors R) :
    g.status = statusOfMembers (membersOf g.location sensors)
    ∧ ∀ sensors2, sensors.Perm sensors2 →
        ∀ g2 ∈ groupSensorsByLocation sensors2 R, g2.location = g.location →
          g2.status = g.status := by
  have h1 := (group_fields sensors R g hg).2.1
  refine ⟨h1, fun sensors2 hperm g2 hg2 hloc => ?_⟩
  have h2 := (group_fields sensors2 R g2 hg2).2.1
  rw [h1, h2, hloc]
  have hpf : (membersOf g.location sensors2).Perm (membersOf g.location sensors) :=
    (hperm.filter (memberOf g.location)).symm
  unfold statusOfMembers
  rw [any_perm_eq hpf, any_perm_eq hpf]

/-- C6: a sensor whose extracted location matches the device-name
patterns contributes to no group: when every input sensor carrying an
identifier is such a device sensor, that identifier appears in no
produced group's member list. -/
theorem deviceName_in_no_group (sensors : List Sensor)
    (R : String → Option SensorReading) (i : String) (g : SensorGroup)
    (h : ∀ s ∈ sensors, s.id = i →
      isDeviceName (extractLocation s.friendlyName) = true)
    (hg : g ∈ groupSensorsByLocation sensors R) :
    i ∉ g.sensorIds := by
  intro hi
  have hids := (group_fields sensors R g hg).1
  rw [hids] at hi
  rcases List.mem_map.mp hi with ⟨s, hsmem, hid⟩
  rcases List.mem_filter.mp hsmem with ⟨hs, hmem⟩
  unfold memberOf keptSensor at hmem
  simp only [Bool.and_eq_true, Bool.not_eq_true'] at hmem
  have hfalse : isDeviceName (sensorLocation s) = false := hmem.1
  unfold sensorLocation at hfalse
  rw [h s hs hid] at hfalse
  cases hfalse

theorem find?_filter_singleton {α : Type} (l : List α) (p q : α → Bool) (s : α)
    (hf : l.filter p = [s]) (him : ∀ t, q t = true → p t = true) :
    l.find? q = if q s = true then some s else none := by
  induction l with
  | nil => simp at hf
  | cons a l ih =>
    rw [List.filter_cons] at hf
    by_cases hqa : q a = true
    · have hpa := him a hqa
      rw [if_pos hpa] at hf
      have ha : a = s := (List.cons_eq_cons.mp hf).1
      rw [List.find?_cons_of_pos _ hqa, ha, if_pos (ha ▸ hqa)]
    · have hqa' : q a = false := by simpa using hqa
      rw [List.find?_cons_of_neg _ hqa]
      by_cases hpa : p a = true
      · rw [if_pos hpa] at hf
        have ha : a = s := (List.cons_eq_cons.mp hf).1
        have hempty : l.filter p = [] := (List.cons_eq_cons.mp hf).2
        have hnone : l.find? q = none := by
          apply List.find?_eq_none.mpr
          intro x hx hqx
          have hpx := him x hqx
          have : x ∈ l.filter p := List.mem_filter.mpr ⟨hx, hpx⟩
          rw [hempty] at this
          cases this
        rw [hnone, ← ha, hqa']
        simp
      · rw [if_neg hpa] at hf
        exact ih hf
    
theorem lastKindValue_singleton (R : String → Option SensorReading) (k : DataKind)
    (ms : List Sensor) (s : Sensor)
    (hf : ms.filter (fun t => getSensorDataType t.friendlyName == some k) = [s]) :
    lastKindValue R k ms none = (R s.id).bind (fieldOf k) := by
  have hps : (getSensorDataType s.friendlyName == some k) = true := by
    have hsin : s ∈ ms.filter fun t => getSensorDataType t.friendlyName == some k := by
      rw [hf]
      exact List.mem_singleton_self s
    exact (List.mem_filter.mp hsin).2
  have hrev : ms.reverse.filter (fun t => getSensorDataType t.friendlyName == some k)
      = [s] := by
    rw [List.filter_reverse, hf]
    rfl
  have hfind := find?_filter_singleton ms.reverse _ (relevantFor R k) s hrev
    (fun t ht => ((Bool.and_eq_true _ _).mp ht).2)
  unfold lastKindValue
  rw [hfind]
  cases hR : R s.id with
  | none =>
    have hrel : relevantFor R k s = false := by
      unfold relevantFor
      rw [hR]
      rfl
    simp [hrel, hR]
  | some r =>
    have hrel : relevantFor R k s = true := by
      unfold relevantFor
      rw [hR]
      simpa using hps
    simp [hrel, hR]

/-- C8: in each produced group with a single member sensor of a data
kind, the displayed value for that kind is taken from that member's
latest reading when one is present and is undefined otherwise; battery
values are read from the humidity field of the battery member's latest
reading. -/
theorem group_values_from_latest (sensors : List Sensor)
    (R : String → Option SensorReading) (g : SensorGroup)
    (hg : g ∈ groupSensorsByLocation sensors R) :
    (∀ s, (membersOf g.location sensors).filter
        (fun t => getSensorDataType t.friendlyName == some DataKind.temperature) = [s] →
      g.temperature = (R s.id).bind SensorReading.temperature)
    ∧ (∀ s, (membersOf g.location sensors).filter
        (fun t => getSensorDataType t.friendlyName == some DataKind.humidity) = [s] →
      g.humidity = (R s.id).bind SensorReading.humidity)
    ∧ (∀ s, (membersOf g.location sensors).filter
        (fun t => getSensorDataType t.friendlyName == some DataKind.battery) = [s] →
      g.battery = (R s.id).bind SensorReading.humidity) := by
  have hval := (group_fields sensors R g hg).2.2
  refine ⟨fun s hf => ?_, fun s hf => ?_, fun s hf => ?_⟩
  · have := hval DataKind.temperature
    rw [lastKindValue_singleton R DataKind.temperature _ s hf] at this
    exact this
  · have := hval DataKind.humidity
    rw [lastKindValue_singleton R DataKind.humidity _ s hf] at this
    exact this
  · have := hval DataKind.battery
    rw [lastKindValue_singleton R DataKind.battery _ s hf] at this
    exact this

/-- C10: in each produced group, the displayed value of each data kind is
the corresponding reading field of the member appearing last in input
order among that kind's members that have a latest reading — even when
that field is absent from the reading — and undefined when no such member
exists; battery reads the humidity field. -/
theorem group_values_last_wins (sensors : List Sensor)
    (R : String → Option SensorReading) (g : SensorGroup)
    (hg : g ∈ groupSensorsByLocation sensors R) :
    g.temperature = lastKindValue R DataKind.temperature (membersOf g.location sensors) none
    ∧ g.humidity = lastKindValue R DataKind.humidity (membersOf g.location sensors) none
    ∧ g.battery = lastKindValue R DataKind.battery (membersOf g.location sensors) none := by
  have hval := (group_fields sensors R g hg).2.2
  exact ⟨hval DataKind.temperature, hval DataKind.humidity, hval DataKind.battery⟩

/-- C9: the aggregator's output is sorted by location name (the
`localeCompare` collation modelled as the code-point order on strings)
and is a permutation of the built group list — the sort is the only
reordering applied. -/
theorem groups_sorted_by_location (sensors : List Sensor)
    (R : String → Option SensorReading) :
    List.Sorted groupLe (groupSensorsByLocation sensors R)
    ∧ (groupSensorsByLocation sensors R).Perm (buildGroups R sensors) := by
  constructor
  · exact List.sorted_insertionSort groupLe (buildGroups R sensors)
  · exact List.perm_insertionSort groupLe (buildGroups R sensors)

theorem findSome?_cases {α β : Type} (l : List α) (f : α → Option β) :
    (∃ a ∈ l, ∃ b, f a = some b ∧ l.findSome? f = some b)
    ∨ ((∀ a ∈ l, f a = none) ∧ l.findSome? f = none) := by
  induction l with
  | nil => exact Or.inr ⟨fun a ha => absurd ha (List.not_mem_nil a), rfl⟩
  | cons a l ih =>
    cases hf : f a with
    | some b =>
      refine Or.inl ⟨a, List.mem_cons_self a l, b, hf, ?_⟩
      simp [List.findSome?_cons, hf]
    | none =>
      rcases ih with ⟨a2, ha2, b2, hfa2, hfs⟩ | ⟨hall, hfs⟩
      · refine Or.inl ⟨a2, List.mem_cons_of_mem a ha2, b2, hfa2, ?_⟩
        simp [List.findSome?_cons, hf, hfs]
      · refine Or.inr ⟨?_, by simp [List.findSome?_cons, hf, hfs]⟩
        intro x hx
        rcases List.mem_cons.mp hx with rfl | hx2
        · exact hf
        · exact hall x hx2

/-! ### Remaining claim theorems and witnesses -/

/-- C5 counterexample: descriptor matching is exact-case, not
case-insensitive — an upper-cased trailing `TEMPERATURE` is not stripped
(the claim predicts location `Büro`), and capitalized `Power` (unlike
lowercase `power`) is not stripped either. -/
theorem extractLocation_not_case_insensitive :
    extractLocation "Büro TEMPERATURE" = "Büro TEMPERATURE"
    ∧ extractLocation "Büro TEMPERATURE" ≠ "Büro"
    ∧ extractLocation "Büro power" = "Büro"
    ∧ extractLocation "Büro Power" = "Büro Power" := by
  exact ⟨by decide, by decide, by decide, by decide⟩

/-- C5 amended: the extracted location is the trimmed name truncated
before the last occurrence of a space followed by one of the exact-case
descriptors Temperature, temperature, Humidity, humidity, Battery,
battery, power (the first descriptor in that fixed order that occurs;
the occurrence need not be trailing), and is the whole trimmed name when
no descriptor occurs; in particular "Büro Temperature" and
"Büro Humidity" fall into one SensorGroup named "Büro" whose temperature
and humidity come from their respective latest readings. -/
theorem extractLocation_exact_suffixes :
    (∀ name : String,
      (∃ suffix ∈ descriptorSuffixes, ∃ index,
          lastIndexOfL (' ' :: suffix.toList) name.toList = some index ∧
          extractLocation name = String.mk (trimL (name.toList.take index)))
      ∨ ((∀ suffix ∈ descriptorSuffixes,
            lastIndexOfL (' ' :: suffix.toList) name.toList = none)
          ∧ extractLocation name = String.mk (trimL name.toList)))
    ∧ groupSensorsByLocation [buroTempSensor, buroHumSensor] demoReadings =
        [buroGroup] := by
  constructor
  · intro name
    rcases findSome?_cases descriptorSuffixes
        (fun suffix => lastIndexOfL (' ' :: suffix.toList) name.toList) with
      ⟨suf, hmem, idx, hidx, hfs⟩ | ⟨hall, hfs⟩
    · left
      refine ⟨suf, hmem, idx, hidx, ?_⟩
      unfold extractLocation
      rw [hfs]
    · right
      refine ⟨hall, ?_⟩
      unfold extractLocation
      rw [hfs]
  · decide

/-- Witness for C1 at a two-sensor roster with exactly one failing fetch. -/
theorem collection_failure_isolation_witness :
    (collectData demoEnv [buroTempSensor, buroHumSensor]).1.length + 1 =
      ([buroTempSensor, buroHumSensor] : List Sensor).length :=
  (collection_failure_isolation demoEnv [buroTempSensor, buroHumSensor] (by decide)).1

/-- Witness for C2 at the Büro fixture group. -/
theorem group_status_precedence_witness :
    buroGroup.status =
      statusOfMembers (membersOf buroGroup.location [buroTempSensor, buroHumSensor]) :=
  (group_status_precedence [buroTempSensor, buroHumSensor] demoReadings buroGroup
    (by decide)).1

/-- Witness for C3 (amended) at a degree-free humidity record. -/
theorem getSensorType_precedence_witness :
    getSensorType humidityPercentState = some SensorType.humidity :=
  (getSensorType_precedence humidityPercentState).2.2.1 rfl (by decide)

/-- Witness for C6 at the IKEA device sensor of the spec's example. -/
theorem deviceName_in_no_group_witness :
    "ik" ∉ buroOnlyTempGroup.sensorIds :=
  deviceName_in_no_group [buroTempSensor, ikeaSensor] demoReadings "ik" buroOnlyTempGroup
    (by decide) (by decide)

/-- Witness for C7 at the reading fetched for the Büro temperature sensor. -/
theorem reading_always_has_value_witness :
    demoFetchedReading.temperature.isSome = true
    ∨ demoFetchedReading.humidity.isSome = true :=
  (reading_always_has_value demoEnv).1 buroTempSensor demoFetchedReading (by decide)

/-- Witness for C8 at the Büro group's unique temperature member. -/
theorem group_values_from_latest_witness :
    buroGroup.temperature = (demoReadings "bt").bind SensorReading.temperature :=
  (group_values_from_latest [buroTempSensor, buroHumSensor] demoReadings buroGroup
    (by decide)).1 buroTempSensor (by decide)

/-- Witness for C10 at a group with two temperature members that both
have readings: the later member's reading wins. -/
theorem group_values_last_wins_witness :
    buroTwoTempGroup.temperature =
      lastKindValue demoReadings DataKind.temperature
        (membersOf buroTwoTempGroup.location [buroTempSensor, buroTemp2Sensor]) none :=
  (group_values_last_wins [buroTempSensor, buroTemp2Sensor] demoReadings buroTwoTempGroup
    (by decide)).1
